import Mathlib

/-!
Verification of the context-budget orchestration core of the ai-agent
repository against its natural-language specification.

The development shallowly embeds the relevant source files:

* `src/unnamed/part_013` — the `Compaction` class holding the overflow
  detector `isOverflow` and the 4-characters-per-token estimator;
* `src/unnamed/part_014` — the `Compaction` class holding `compact`
  (summarization tier), the CJK-weighted estimator and `summarizer`;
* `src/src/agent/index.ts` — `Agent.run`, the bounded tool-calling loop,
  together with the tool dispatch block inside it;
* `src/src/providers/openai.ts` — the error behaviour of
  `OpenAIProvider.generate`;
* the pruning tier, which has no implementation in the repository
  sources, is modelled from the specification (see the `Prune` namespace).

Strings are modelled as lists of characters (`List Char`) where character
counts matter, and as `String` where content is opaque.  JavaScript
numbers are modelled as `Nat`/`Int` with the floating-point ratio
comparisons of `part_014` rewritten in exact rational form (noted at the
definition).
-/

namespace AgentSpec

/-- Message roles, from `providers/base.ts` (`message.role`). -/
inductive Role
  | user
  | system
  | assistant
  | tool
deriving DecidableEq, Repr

/-- Message `type` tags: the three tags of `providers/base.ts` plus the
`summary` tag that `part_014` attaches to its summary messages. -/
inductive MType
  | text
  | tool
  | tool_call
  | summary
deriving DecidableEq, Repr

/-- A chat message as the compaction code sees it: role, optional type
tag, and content modelled as a list of characters.  The remaining fields
of `providers/base.ts` (`tool_call_id`, `tool_calls`) are not read by the
compaction code. -/
structure CMsg where
  role : Role
  mtype : Option MType
  content : List Char
deriving DecidableEq, Repr

namespace Compaction13

/-- Embeds `estimate` of `src/unnamed/part_013`:
`Math.max(0, Math.round(text.length / CHARS_PER_TOKEN))` with
`CHARS_PER_TOKEN = 4`.  For a nonnegative length `n`,
`Math.round(n / 4) = (n + 2) / 4` in natural-number division, and the
`Math.max(0, _)` clamp is the identity.  The `input || ""` null-guard is
the identity on total strings. -/
def estimate (text : List Char) : Nat :=
  (text.length + 2) / 4

/-- Embeds `isOverflow` of `src/unnamed/part_013`: the estimate of the
input plus the estimate of all history contents joined with `""` is
compared against the fixed constant `200 * 1024`. -/
def isOverflow (input : List Char) (historyMessages : List CMsg) : Bool :=
  decide (estimate input + estimate (historyMessages.map CMsg.content).flatten > 200 * 1024)

end Compaction13

/-- Written from the words of the specification, for comparison with the
overflow detector of the source (refinement check for claim C1):
`total = promptTokens + cacheReadTokens + outputTokensUsed`,
`reserved = min(modelOutputLimit, configuredOutputCap)`,
`available = contextLimit - reserved`, overflow iff `total > available`. -/
def isOverflowSpecFormula (promptTokens cacheReadTokens outputTokensUsed
    contextLimit modelOutputLimit configuredOutputCap : Nat) : Bool :=
  decide (promptTokens + cacheReadTokens + outputTokensUsed >
    contextLimit - min modelOutputLimit configuredOutputCap)

namespace Compaction14

/-- Embeds the regex character class `[一-龥]` used by the
`part_014` estimator to detect CJK characters. -/
def isCJK (c : Char) : Bool :=
  decide (0x4e00 ≤ c.toNat ∧ c.toNat ≤ 0x9fa5)

/-- Embeds `estimate` of `src/unnamed/part_014`: the empty string returns
`0` (`if (!text) return 0`); otherwise CJK characters weigh `1.0` and all
other characters weigh `0.25`, and the weighted sum is rounded up
(`Math.ceil`).  With `ch` CJK characters among `n`,
`Math.ceil(ch + (n - ch)/4) = (4*ch + (n - ch) + 3) / 4` in
natural-number division. -/
def estimate (text : List Char) : Nat :=
  if text.length = 0 then 0
  else
    (4 * (text.filter isCJK).length + (text.length - (text.filter isCJK).length) + 3) / 4

end Compaction14

/-- Helper: the length of the 780000-character witness input. -/
lemma replicate_780000_length : (List.replicate 780000 'a').length = 780000 := by
  rw [List.length_replicate]

/-- Helper: the part_013 detector answers `false` on any 780000-character
input with empty history, although such an input is estimated at exactly
`195000` tokens. -/
lemma isOverflow_false_at_195000 (l : List Char) (h : l.length = 780000) :
    Compaction13.isOverflow l [] = false := by
  rw [Compaction13.isOverflow, Compaction13.estimate, Compaction13.estimate, h]
  decide

/-- Claim C1 counterexample.  The overflow detector of the source does not
decide overflow by the formula of the specification: the formula declares
the scenario `(prompt 190000, cacheRead 5000, output 0, context 200000,
modelOutput 8000, cap 8000)` an overflow (total `195000 >` available
`192000`), while the detector of `part_013` takes an input string and a
history, compares the estimated total against the fixed constant
`204800`, and therefore answers `false` on an input estimated at exactly
`195000` tokens (a 780000-character input with empty history). -/
theorem c1_isOverflow_not_spec_formula :
    isOverflowSpecFormula 190000 5000 0 200000 8000 8000 = true ∧
    Compaction13.estimate (List.replicate 780000 'a') = 195000 ∧
    Compaction13.isOverflow (List.replicate 780000 'a') [] = false := by
  refine ⟨by decide, ?_, isOverflow_false_at_195000 _ replicate_780000_length⟩
  rw [Compaction13.estimate, replicate_780000_length]

/-- Claim C1, amended.  What the overflow detector of `part_013` actually
decides: `isOverflow(input, history)` is true iff
`⌊(|input| + 2) / 4⌋ + ⌊(Σ |content| + 2) / 4⌋ > 200 * 1024`, where the
sum ranges over the contents of the history messages; the detector takes
no context-limit, model-output-limit or output-cap parameters. -/
theorem c1_isOverflow_by_length :
    ∀ (input : List Char) (history : List CMsg),
      Compaction13.isOverflow input history = true ↔
        (input.length + 2) / 4 +
          ((history.map fun m => m.content.length).sum + 2) / 4 > 200 * 1024 := by
  intro input history
  simp [Compaction13.isOverflow, Compaction13.estimate]
  exact Iff.rfl

/-- Claim C7.  Both token estimators return a nonnegative integer for
every input (they land in `Nat`), return `0` on the empty string, and are
monotone under appending: `estimate s ≤ estimate (s ++ t)`.  This covers
the CJK-weighted estimator of `part_014` and the 4-characters-per-token
estimator of `part_013`. -/
theorem c7_estimate_zero_monotone :
    Compaction14.estimate [] = 0 ∧
    Compaction13.estimate [] = 0 ∧
    (∀ s : List Char, 0 ≤ Compaction14.estimate s ∧ 0 ≤ Compaction13.estimate s) ∧
    (∀ s t : List Char, Compaction14.estimate s ≤ Compaction14.estimate (s ++ t)) ∧
    (∀ s t : List Char, Compaction13.estimate s ≤ Compaction13.estimate (s ++ t)) := by
  refine ⟨by decide, by decide, fun s => ⟨Nat.zero_le _, Nat.zero_le _⟩, ?_, ?_⟩
  · intro s t
    rcases s with _ | ⟨c, s'⟩
    · simp [Compaction14.estimate]
    · have hns : (c :: s').length ≠ 0 := by simp
      have hnst : ((c :: s') ++ t).length ≠ 0 := by simp
      have ha : ((c :: s').filter Compaction14.isCJK).length ≤ (c :: s').length :=
        List.Sublist.length_le (List.filter_sublist _)
      have hb : (t.filter Compaction14.isCJK).length ≤ t.length :=
        List.Sublist.length_le (List.filter_sublist _)
      unfold Compaction14.estimate
      rw [if_neg hns, if_neg hnst]
      simp only [List.filter_append, List.length_append]
      apply Nat.div_le_div_right
      omega
  · intro s t
    apply Nat.div_le_div_right
    simp only [List.length_append]
    omega

namespace Compaction14

/-- Embeds `KEEP_RECENT_COUNT = 2` of part_014 `compact`. -/
def KEEP_RECENT_COUNT : Nat := 2

/-- Printed role name used when serializing a pending message. -/
def roleStr : Role → List Char
  | Role.user => "user".data
  | Role.system => "system".data
  | Role.assistant => "assistant".data
  | Role.tool => "tool".data

/-- Printed type tag used when serializing a pending message.  All four
tags are nonempty strings, hence truthy in the `m.type ?` test. -/
def typeStr : MType → List Char
  | MType.text => "text".data
  | MType.tool => "tool".data
  | MType.tool_call => "tool_call".data
  | MType.summary => "summary".data

/-- Embeds the serialization of one pending message in part_014 `compact`
step 4: a `[role:type]` or `[role]` tag, then `": "`, then the content,
truncated to a 1000-character preview when longer than 2000 characters. -/
def fmtMsg (m : CMsg) : List Char :=
  (match m.mtype with
    | some t => "[".data ++ roleStr m.role ++ ":".data ++ typeStr t ++ "]".data
    | none => "[".data ++ roleStr m.role ++ "]".data)
  ++ ": ".data
  ++ (if 2000 < m.content.length
      then m.content.take 1000 ++ "...(省略)...".data
      else m.content)

/-- Embeds the predicate of part_014 `compact` step 1 for
non-compressible system messages:
`m.role === "system" && m.type !== "summary"`. -/
def isSysNS (m : CMsg) : Bool :=
  decide (m.role = Role.system ∧ m.mtype ≠ some MType.summary)

/-- Embeds the `systemMessages` filter of part_014 `compact` step 1. -/
def sysNS (h : List CMsg) : List CMsg := h.filter isSysNS

/-- Embeds the `otherMessages` filter of part_014 `compact` step 2.  The
source computes `history.filter(m => !systemMessages.includes(m))`;
with JavaScript object identity this keeps exactly the messages that
falsify the system predicate. -/
def nonSys (h : List CMsg) : List CMsg := h.filter (fun m => !(isSysNS m))

/-- Embeds `slice(-n)`: the last `n` elements of a list (the whole list
when it is shorter than `n`). -/
def lastN (n : Nat) (l : List CMsg) : List CMsg := l.drop (l.length - n)

/-- Embeds `calculateTotalUsage`: per-message estimate plus a fixed
4-token per-message overhead, accumulated left to right from 0. -/
def calculateTotalUsage (messages : List CMsg) : Nat :=
  messages.foldl (fun acc m => acc + estimate m.content + 4) 0

/-- The fixed prefix of every summary message produced by `compact`. -/
def snapshotHeader : List Char := "[Historical Memory Snapshot]:\n".data

/-- Embeds the construction of `lastSummaryMessage` in part_014 `compact`
step 5: role `system`, type `summary`, content the snapshot header
followed by the summarizer text.  When the summarizer returned
`undefined`, the template literal interpolates the string `undefined`. -/
def mkSummaryMsg (c : Option (List Char)) : CMsg :=
  { role := Role.system, mtype := some MType.summary,
    content := snapshotHeader ++ (match c with | some s => s | none => "undefined".data) }

/-- Embeds part_014 `summarizer`, abstracted over the outcome of the
provider call it wraps (`Except.error` models a thrown call,
`Except.ok none` a `null` response).  A thrown error is caught
(`spinner.fail`) and the method falls off the end returning `undefined`
(`none`); otherwise it returns `llmResponse?.content || ""`.  Note the
method never throws and never propagates the failure to its caller. -/
def summarizerImpl (llm : Except String (Option (List Char))) :
    Except Unit (Option (List Char)) :=
  Except.ok (match llm with
    | Except.error _ => none
    | Except.ok c => some (c.getD []))

/-- Embeds part_014 `compact` steps 3 and 4 applied to `otherMessages`:
the pending block `slice(0, -KEEP_RECENT_COUNT)`, split into the previous
summary text (when the block starts with a summary message, which is then
dropped from the block) and the remaining pending messages. -/
def pendingPair (other : List CMsg) : List Char × List CMsg :=
  match other.take (other.length - KEEP_RECENT_COUNT) with
  | [] => ([], [])
  | p :: rest =>
    if p.mtype = some MType.summary then (p.content, rest) else ([], p :: rest)

/-- Embeds part_014 `compact`, parameterized over the summarizer call
outcome (`smry textToSummarize previousSummary`, with `Except.error`
modelling a thrown summarizer and `Except.ok none` a summarizer that
returned `undefined`).  The floating-point threshold comparisons
`totalUsed < usableLimit * 0.05` and
`calculateTotalUsage(newHistory) > usableLimit * 0.75` are written in
exact rational form (`20 * totalUsed < usableLimit`,
`3 * usableLimit < 4 * usage`); `usableLimit` is
`maxTokens - maxOutputTokens` over the integers, which may be negative.
The intermediate bindings of the source (`usableLimit`, `otherMessages`,
`activeMessages`, `pendingMessages`, `newHistory`) are inlined. -/
def compact (smry : List Char → List Char → Except Unit (Option (List Char)))
    (maxTokens maxOutputTokens : Nat) (history : List CMsg) : List CMsg :=
  if (20 * (calculateTotalUsage history : Int)) <
      (maxTokens : Int) - (maxOutputTokens : Int) then history
  else if (nonSys history).length ≤ KEEP_RECENT_COUNT then history
  else
    match smry (List.intercalate ['\n'] ((pendingPair (nonSys history)).2.map fmtMsg))
        (pendingPair (nonSys history)).1 with
    | Except.error _ => history
    | Except.ok newSummaryContent =>
      if 3 * ((maxTokens : Int) - (maxOutputTokens : Int)) <
          4 * (calculateTotalUsage (sysNS history ++ [mkSummaryMsg newSummaryContent] ++
                lastN KEEP_RECENT_COUNT (nonSys history)) : Int) then
        lastN KEEP_RECENT_COUNT (sysNS history ++ [mkSummaryMsg newSummaryContent] ++
          lastN KEEP_RECENT_COUNT (nonSys history))
      else
        sysNS history ++ [mkSummaryMsg newSummaryContent] ++
          lastN KEEP_RECENT_COUNT (nonSys history)

/-- Helper: the length of `lastN n l` when `l` is long enough. -/
lemma lastN_length_of_le (n : Nat) (l : List CMsg) (h : n ≤ l.length) :
    (lastN n l).length = n := by
  unfold lastN
  rw [List.length_drop]
  omega

/-- Helper: `slice(-n)` of `pre ++ act` is `act` when `act` has exactly
`n` elements. -/
lemma lastN_append_left (n : Nat) (pre act : List CMsg) (hact : act.length = n) :
    lastN n (pre ++ act) = act := by
  unfold lastN
  rw [List.length_append, hact]
  have hx : pre.length + n - n = pre.length := by omega
  rw [hx, List.drop_left]

/-- Helper: case analysis of `compact`.  Every run returns the input
unchanged, or the non-summary system messages followed by one new summary
message followed by the last two non-system messages, or (degenerate
re-trim branch) just the last two non-system messages. -/
lemma compact_cases (smry : List Char → List Char → Except Unit (Option (List Char)))
    (maxTokens maxOutputTokens : Nat) (h : List CMsg) :
    Compaction14.compact smry maxTokens maxOutputTokens h = h ∨
    (∃ c, Compaction14.compact smry maxTokens maxOutputTokens h =
        sysNS h ++ [mkSummaryMsg c] ++ lastN KEEP_RECENT_COUNT (nonSys h)) ∨
    Compaction14.compact smry maxTokens maxOutputTokens h = lastN KEEP_RECENT_COUNT (nonSys h) := by
  unfold compact
  split
  · exact Or.inl rfl
  · split
    · exact Or.inl rfl
    · rename_i hlen
      split
      · exact Or.inl rfl
      · rename_i c hsm
        split
        · refine Or.inr (Or.inr ?_)
          refine lastN_append_left _ _ _ ?_
          refine lastN_length_of_le _ _ ?_
          omega
        · exact Or.inr (Or.inl ⟨c, rfl⟩)

end Compaction14

/-- User and system messages used in the concrete compaction scenarios. -/
def exU1 : CMsg := ⟨Role.user, none, ['u', '1']⟩

/-- Second concrete user message. -/
def exU2 : CMsg := ⟨Role.user, none, ['u', '2']⟩

/-- Third concrete user message. -/
def exU3 : CMsg := ⟨Role.user, none, ['u', '3']⟩

/-- A concrete non-summary system message. -/
def exS1 : CMsg := ⟨Role.system, none, ['s', '1']⟩

/-- A summarizer that succeeds and returns the text `ok`. -/
def smryOk : List Char → List Char → Except Unit (Option (List Char)) :=
  fun _ _ => Except.ok (some ['o', 'k'])

/-- A summarizer that throws (hypothetical: the real `summarizer` never
does, see `summarizerImpl`). -/
def smryThrow : List Char → List Char → Except Unit (Option (List Char)) :=
  fun _ _ => Except.error ()

/-- The real summarizer of part_014 on a run where the wrapped provider
call throws: it swallows the error and returns `undefined`. -/
def smryLLMFail : List Char → List Char → Except Unit (Option (List Char)) :=
  fun _ _ => Compaction14.summarizerImpl (Except.error "network error")

/-- Claim C4 (code bug).  The claim is the intent of the code (the catch
in `compact` comments that on failure the original history is returned so
no data is lost), and indeed a summarizer that throws leaves the history
unchanged.  But the actual `summarizer` method catches the provider
failure itself and returns `undefined`, so `compact` never sees a thrown
summarizer: on a failing provider call it replaces messages with a
summary whose text is the literal string `undefined`, and the history is
modified after all. -/
theorem c4_summarizer_failure_modifies_history :
    Compaction14.compact smryThrow 100 0 [exU1, exU2, exU3] = [exU1, exU2, exU3] ∧
    (∀ e, Compaction14.summarizerImpl (Except.error e) = Except.ok none) ∧
    Compaction14.compact smryLLMFail 100 0 [exU1, exU2, exU3]
      = [Compaction14.mkSummaryMsg none, exU2, exU3] ∧
    Compaction14.compact smryLLMFail 100 0 [exU1, exU2, exU3] ≠ [exU1, exU2, exU3] := by
  refine ⟨by decide, fun e => rfl, by decide, by decide⟩

/-- Claim C5 counterexample.  A successful compaction pass can change the
relative order of surviving messages: with history
`[u1, u2, u3, s1]` (three user messages, then a system message), both
`s1` and `u2` survive, `u2` precedes `s1` in the input, but `s1` precedes
`u2` in the output, because `compact` hoists all non-summary system
messages to the front.  Consequently the replaced messages also do not
form one contiguous range of the input. -/
theorem c5_compact_reorders_survivors :
    Compaction14.compact smryOk 100 0 [exU1, exU2, exU3, exS1]
      = [exS1, Compaction14.mkSummaryMsg (some ['o', 'k']), exU2, exU3] ∧
    List.indexOf exU2 [exU1, exU2, exU3, exS1]
      < List.indexOf exS1 [exU1, exU2, exU3, exS1] ∧
    List.indexOf exS1 [exS1, Compaction14.mkSummaryMsg (some ['o', 'k']), exU2, exU3]
      < List.indexOf exU2 [exS1, Compaction14.mkSummaryMsg (some ['o', 'k']), exU2, exU3] := by
  refine ⟨by decide, by decide, by decide⟩

/-- Claim C5, amended.  Every compaction pass returns the input
unchanged, or the non-summary system messages (a filter of the input, in
input order) followed by exactly one new summary message followed by the
last two non-system messages (a suffix of a filter of the input, in input
order), or, in the degenerate re-trim branch, just the last two
non-system messages; each surviving group is a sublist of the input, but
groups may be reordered relative to each other and the replaced messages
need not be contiguous. -/
theorem c5_compact_structure
    (smry : List Char → List Char → Except Unit (Option (List Char)))
    (maxTokens maxOutputTokens : Nat) (h : List CMsg) :
    (Compaction14.compact smry maxTokens maxOutputTokens h = h ∨
     (∃ c, Compaction14.compact smry maxTokens maxOutputTokens h =
         Compaction14.sysNS h ++ [Compaction14.mkSummaryMsg c] ++
           Compaction14.lastN Compaction14.KEEP_RECENT_COUNT (Compaction14.nonSys h)) ∨
     Compaction14.compact smry maxTokens maxOutputTokens h =
       Compaction14.lastN Compaction14.KEEP_RECENT_COUNT (Compaction14.nonSys h)) ∧
    (Compaction14.sysNS h).Sublist h ∧
    (Compaction14.lastN Compaction14.KEEP_RECENT_COUNT (Compaction14.nonSys h)).Sublist h := by
  refine ⟨Compaction14.compact_cases smry maxTokens maxOutputTokens h, ?_, ?_⟩
  · exact List.filter_sublist h
  · exact List.Sublist.trans (List.drop_sublist _ _) (List.filter_sublist h)

/-- Claim C6 counterexample.  Compaction removes user messages: with
history `[u1, u2, u3]`, the user message `u1` is summarized away and is
absent from the output. -/
theorem c6_compact_drops_user_message :
    exU1.role = Role.user ∧
    exU1 ∈ [exU1, exU2, exU3] ∧
    Compaction14.compact smryOk 100 0 [exU1, exU2, exU3]
      = [Compaction14.mkSummaryMsg (some ['o', 'k']), exU2, exU3] ∧
    exU1 ∉ Compaction14.compact smryOk 100 0 [exU1, exU2, exU3] := by
  refine ⟨by decide, by decide, by decide, by decide⟩

/-- Claim C6, amended.  The non-summary system messages are preserved
exactly (as a list, hence also as a set) by every compaction pass that
does not take the degenerate re-trim branch; in the degenerate branch the
output is just the last two non-system messages.  User messages outside
the protected last-two window are not preserved: they are removed and
folded into the summary. -/
theorem c6_compact_preserves_nonsummary_system
    (smry : List Char → List Char → Except Unit (Option (List Char)))
    (maxTokens maxOutputTokens : Nat) (h : List CMsg) :
    Compaction14.sysNS (Compaction14.compact smry maxTokens maxOutputTokens h) = Compaction14.sysNS h ∨
    Compaction14.compact smry maxTokens maxOutputTokens h =
      Compaction14.lastN Compaction14.KEEP_RECENT_COUNT (Compaction14.nonSys h) := by
  rcases Compaction14.compact_cases smry maxTokens maxOutputTokens h with hc | ⟨c, hc⟩ | hc
  · left; rw [hc]
  · left
    rw [hc]
    unfold Compaction14.sysNS
    rw [List.filter_append, List.filter_append]
    have h1 : List.filter Compaction14.isSysNS (List.filter Compaction14.isSysNS h)
        = List.filter Compaction14.isSysNS h := by
      rw [List.filter_filter]
      simp [Bool.and_self]
    have h2 : List.filter Compaction14.isSysNS [Compaction14.mkSummaryMsg c] = [] := by
      simp [Compaction14.isSysNS, Compaction14.mkSummaryMsg]
    have h3 : List.filter Compaction14.isSysNS
        (Compaction14.lastN Compaction14.KEEP_RECENT_COUNT (Compaction14.nonSys h)) = [] := by
      rw [List.filter_eq_nil_iff]
      intro a ha
      have ha2 : a ∈ Compaction14.nonSys h := (List.drop_sublist _ _).subset ha
      have ha3 := (List.mem_filter.mp ha2).2
      simp only [Bool.not_eq_eq_eq_not, Bool.not_true] at ha3
      simp [ha3]
    rw [h1, h2, h3]
    simp
  · right; exact hc

namespace Prune

/-- Modelled from the spec: the pruning tier (spec section 4.3, Tier 2)
has no implementation under the repository sources; only the analysis
document `docs/compaction-analysis.md` reproduces the pruning routine the
spec describes.  This structure models the state of one tool-call part:
completion status, output text, and the compacted marker
(`state.time.compacted`). -/
structure ToolState where
  completed : Bool
  output : List Char
  compacted : Bool
deriving DecidableEq, Repr

/-- Modelled from the spec: a part of a message, either plain text or a
tool call with its state. -/
inductive PPart
  | text (content : List Char)
  | tool (name : String) (state : ToolState)
deriving DecidableEq, Repr

/-- Modelled from the spec: a message as the pruning scan sees it:
whether its role is `assistant`, its optional turn index, the summary
marker, and its parts. -/
structure PMsg where
  assistant : Bool
  turn : Option Nat
  summary : Bool
  parts : List PPart
deriving DecidableEq, Repr

/-- Modelled from the spec: the minimum total of prunable tokens below
which the whole pruning pass is a no-op. -/
def PRUNE_MINIMUM : Nat := 20000

/-- Modelled from the spec: the protect-token threshold; tool outputs are
blanked only once the running total exceeds it. -/
def PRUNE_PROTECT : Nat := 40000

/-- Modelled from the spec: the protected-tool allow-list. -/
def PRUNE_PROTECTED_TOOLS : List String := ["skill"]

/-- Modelled from the spec: the protected recent-turn window. -/
def RECENT_TURNS : Nat := 2

/-- Modelled from the spec: the scan over the parts of one prunable
message.  The running token total accumulates the estimate of each
completed, non-protected tool output; a tool part is blanked (output
emptied, compacted marker set) exactly when the updated running total
exceeds the protect threshold.  Returns the final running total and the
updated parts. -/
def pruneParts (total : Nat) : List PPart → Nat × List PPart
  | [] => (total, [])
  | PPart.text c :: rest =>
    let r := pruneParts total rest
    (r.1, PPart.text c :: r.2)
  | PPart.tool n st :: rest =>
    if st.completed && !(PRUNE_PROTECTED_TOOLS.contains n) then
      let total2 := total + Compaction13.estimate st.output
      let p2 := if PRUNE_PROTECT < total2
        then PPart.tool n { st with compacted := true, output := [] }
        else PPart.tool n st
      let r := pruneParts total2 rest
      (r.1, p2 :: r.2)
    else
      let r := pruneParts total rest
      (r.1, PPart.tool n st :: r.2)

/-- Modelled from the spec: the newest-to-oldest scan over messages
(given here newest first).  Non-assistant messages are skipped; an
assistant message with a turn index sets the running turn counter to
`turn + 1`; messages inside the protected recent-turn window are skipped
untouched; a summary message stops the scan (everything older is left
untouched); otherwise the parts of the message are pruned.  Returns the
final running token total and the updated messages. -/
def pruneMsgsRev (total turns : Nat) : List PMsg → Nat × List PMsg
  | [] => (total, [])
  | m :: rest =>
    if !m.assistant then
      let r := pruneMsgsRev total turns rest
      (r.1, m :: r.2)
    else
      let turns2 := match m.turn with | some t => t + 1 | none => turns
      if turns2 ≤ RECENT_TURNS then
        let r := pruneMsgsRev total turns2 rest
        (r.1, m :: r.2)
      else if m.summary then
        (total, m :: rest)
      else
        let pr := pruneParts total m.parts
        let r := pruneMsgsRev pr.1 turns2 rest
        (r.1, { m with parts := pr.2 } :: r.2)

/-- Modelled from the spec: the whole pruning pass over a session history
given oldest first. -/
def prune (msgs : List PMsg) : List PMsg :=
  ((pruneMsgsRev 0 0 msgs.reverse).2).reverse

/-- Modelled from the spec: the total estimated tokens of prunable tool
results seen by the scan. -/
def prunableTotal (msgs : List PMsg) : Nat :=
  (pruneMsgsRev 0 0 msgs.reverse).1

/-- Modelled from the spec: the length of the protected recent-turn tail
(counted on the newest-first list): the maximal prefix of the scan during
which the running turn counter stays within the protected window. -/
def protectedLen (turns : Nat) : List PMsg → Nat
  | [] => 0
  | m :: rest =>
    if !m.assistant then 1 + protectedLen turns rest
    else
      let turns2 := match m.turn with | some t => t + 1 | none => turns
      if turns2 ≤ RECENT_TURNS then 1 + protectedLen turns2 rest
      else 0

/-- Helper: the parts scan only ever increases the running total, and if
the final total still does not exceed the protect threshold then no part
was changed. -/
lemma pruneParts_le_and_id (l : List PPart) : ∀ total : Nat,
    total ≤ (pruneParts total l).1 ∧
    ((pruneParts total l).1 ≤ PRUNE_PROTECT → (pruneParts total l).2 = l) := by
  induction l with
  | nil => intro total; exact ⟨Nat.le_refl _, fun _ => rfl⟩
  | cons p rest ih =>
    intro total
    cases p with
    | text c =>
      have h := ih total
      simp only [pruneParts]
      exact ⟨h.1, fun hle => by rw [h.2 hle]⟩
    | tool n st =>
      cases hc : (st.completed && !(PRUNE_PROTECTED_TOOLS.contains n)) with
      | false =>
        have h := ih total
        simp only [pruneParts, hc, Bool.false_eq_true, if_false]
        exact ⟨h.1, fun hle => by rw [h.2 hle]⟩
      | true =>
        have h := ih (total + Compaction13.estimate st.output)
        simp only [pruneParts, hc, if_true]
        constructor
        · exact Nat.le_trans (Nat.le_add_right _ _) h.1
        · intro hle
          have h2 : total + Compaction13.estimate st.output ≤ PRUNE_PROTECT :=
            Nat.le_trans h.1 hle
          rw [if_neg (by omega), h.2 hle]

/-- Helper: the message scan only ever increases the running total, and
if the final total does not exceed the protect threshold then no message
was changed. -/
lemma pruneMsgsRev_le_and_id (l : List PMsg) : ∀ total turns : Nat,
    total ≤ (pruneMsgsRev total turns l).1 ∧
    ((pruneMsgsRev total turns l).1 ≤ PRUNE_PROTECT →
      (pruneMsgsRev total turns l).2 = l) := by
  induction l with
  | nil => intro total turns; exact ⟨Nat.le_refl _, fun _ => rfl⟩
  | cons m rest ih =>
    intro total turns
    cases hna : m.assistant with
    | false =>
      have h := ih total turns
      simp only [pruneMsgsRev, hna, Bool.not_false, if_true]
      exact ⟨h.1, fun hle => by rw [h.2 hle]⟩
    | true =>
      simp only [pruneMsgsRev, hna, Bool.not_true, Bool.false_eq_true, if_false]
      by_cases hw : (match m.turn with | some t => t + 1 | none => turns) ≤ RECENT_TURNS
      · have h := ih total (match m.turn with | some t => t + 1 | none => turns)
        rw [if_pos hw]
        exact ⟨h.1, fun hle => by rw [h.2 hle]⟩
      · rw [if_neg hw]
        cases hs : m.summary with
        | true =>
          simp only [hs, if_true]
          exact ⟨Nat.le_refl _, fun _ => trivial⟩
        | false =>
          simp only [hs, Bool.false_eq_true, if_false]
          have hp := pruneParts_le_and_id m.parts total
          have h := ih (pruneParts total m.parts).1
              (match m.turn with | some t => t + 1 | none => turns)
          constructor
          · exact Nat.le_trans hp.1 h.1
          · intro hle
            have h2 : (pruneParts total m.parts).1 ≤ PRUNE_PROTECT :=
              Nat.le_trans h.1 hle
            rw [h.2 hle, hp.2 h2, ← hna, ← hs]

/-- Helper: the scan leaves the protected recent-turn tail untouched. -/
lemma pruneMsgsRev_protected (l : List PMsg) : ∀ total turns : Nat,
    List.take (protectedLen turns l) (pruneMsgsRev total turns l).2
      = List.take (protectedLen turns l) l := by
  induction l with
  | nil => intro total turns; rfl
  | cons m rest ih =>
    intro total turns
    cases hna : m.assistant with
    | false =>
      simp only [pruneMsgsRev, protectedLen, hna, Bool.not_false, if_true]
      rw [Nat.add_comm 1 (protectedLen turns rest)]
      simp only [List.take_succ_cons]
      rw [ih total turns]
    | true =>
      simp only [pruneMsgsRev, protectedLen, hna, Bool.not_true, Bool.false_eq_true,
        if_false]
      by_cases hw : (match m.turn with | some t => t + 1 | none => turns) ≤ RECENT_TURNS
      · rw [if_pos hw, if_pos hw]
        rw [Nat.add_comm 1 (protectedLen _ rest)]
        simp only [List.take_succ_cons]
        rw [ih total _]
      · rw [if_neg hw, if_neg hw]
        simp

end Prune

/-- Claim C8 (pruning tier, modelled from the spec since no
implementation exists in the repository sources).  The pruning pass never
blanks a message inside the protected recent-turn window (the newest-run
of messages whose running turn count stays within `RECENT_TURNS` is
returned untouched), and when the total estimated tokens of prunable tool
results stays below the configured minimum (`PRUNE_MINIMUM = 20000`,
which is below the protect threshold `PRUNE_PROTECT = 40000`) the whole
pass leaves every message unchanged. -/
theorem c8_prune_window_and_minimum (msgs : List Prune.PMsg) :
    List.take (Prune.protectedLen 0 msgs.reverse) (Prune.prune msgs).reverse
      = List.take (Prune.protectedLen 0 msgs.reverse) msgs.reverse ∧
    (Prune.prunableTotal msgs < Prune.PRUNE_MINIMUM → Prune.prune msgs = msgs) := by
  constructor
  · unfold Prune.prune
    rw [List.reverse_reverse]
    exact Prune.pruneMsgsRev_protected msgs.reverse 0 0
  · intro hmin
    unfold Prune.prune
    have h := (Prune.pruneMsgsRev_le_and_id msgs.reverse 0 0).2
    rw [h (by
      unfold Prune.prunableTotal at hmin
      unfold Prune.PRUNE_MINIMUM at hmin
      unfold Prune.PRUNE_PROTECT
      omega)]
    exact List.reverse_reverse msgs

/-- A concrete history for the claim C8 witness: one old assistant
message carrying one completed, unprotected tool result. -/
def exPruneMsgs : List Prune.PMsg :=
  [{ assistant := true, turn := some 5, summary := false,
     parts := [Prune.PPart.tool "bash"
       { completed := true, output := ['x', 'y', 'z'], compacted := false }] }]

/-- Claim C8 witness: on the concrete history the prunable total is below
the minimum and the pass leaves the history unchanged (and trivially the
protected tail untouched). -/
theorem c8_prune_window_and_minimum_witness :
    Prune.prunableTotal exPruneMsgs < Prune.PRUNE_MINIMUM ∧
    Prune.prune exPruneMsgs = exPruneMsgs := by
  refine ⟨by decide, ?_⟩
  exact (c8_prune_window_and_minimum exPruneMsgs).2 (by decide)

namespace Agent

/-- Embeds the `function` field of a tool call (`providers/base.ts`):
tool name and raw JSON arguments string. -/
structure ToolFn where
  name : String
  arguments : String
deriving DecidableEq, Repr

/-- Embeds one tool call issued by the model: id plus function data (the
source field is called `function`, a reserved word here, hence `fn`). -/
structure ToolCall where
  id : String
  fn : ToolFn
deriving DecidableEq, Repr

/-- Embeds the part of an `LLMResponse` that `Agent.run` inspects:
content and tool calls (the source normalizes an absent `tool_calls`
field to the empty list). -/
structure LLMResp where
  content : String
  tool_calls : List ToolCall
deriving DecidableEq, Repr

/-- Embeds `message` of `providers/base.ts` as stored by the
`SessionManager` queue (`MessageQueue.add` appends, `getAll` reads; the
repository persistence failures are swallowed inside `addMessage`). -/
structure AMsg where
  role : String
  content : String
  mtype : Option String := none
  tool_calls : List ToolCall := []
  tool_call_id : Option String := none
deriving DecidableEq, Repr

/-- The user message appended by `Agent.run` step 2. -/
def userMsg (query : String) : AMsg := { role := "user", content := query }

/-- The system-prompt message prepended to the history before each LLM
call (`fullMessages = [systemMessage, ...history]`). -/
def systemMsg (prompt : String) : AMsg := { role := "system", content := prompt }

/-- The assistant message persisted for a final (no tool call) answer. -/
def assistantMsg (content : String) : AMsg := { role := "assistant", content := content }

/-- The assistant message persisted when the response carries tool calls
(type `tool_call`, with the calls attached). -/
def assistantToolCallMsg (resp : LLMResp) : AMsg :=
  { role := "assistant", content := resp.content, mtype := some "tool_call",
    tool_calls := resp.tool_calls }

/-- The synthesized result text for a tool call whose arguments are not
parseable JSON, verbatim from `Agent.run`. -/
def parseFailText : String :=
  "Error: Failed to parse tool arguments. The JSON was malformed. Please try again with properly formatted parameters."

/-- The value of one settled tool-call promise in `Agent.run`: the
original call and the result text.  The promise also carries an `error`
field, which the persistence loop destructures and then ignores, so it is
not modelled. -/
structure DispatchResult where
  toolCall : ToolCall
  result : String
deriving DecidableEq, Repr

/-- Embeds the body of one tool-call promise in `Agent.run`,
parameterized over `JSON.parse` (`parseJson`, `none` modelling a throw)
and `ToolRegistry.execute` (`exec`, `Except.error` modelling a throw,
which covers unknown tool name, invalid arguments and a tool that throws
or rejects).  Besides the settled result, the second component records
the tool invocations actually performed, so that «the tool is not
invoked on a parse failure» is expressible.  A parse failure yields the
synthesized error text without invoking the tool; a thrown execution
yields `"Error: " ++ message`; each promise catches its own errors, so no
failure escapes to a sibling. -/
def dispatchOne {α : Type} (parseJson : String → Option α)
    (exec : String → α → Except String String) (tc : ToolCall) :
    DispatchResult × List (String × α) :=
  match parseJson tc.fn.arguments with
  | none => ({ toolCall := tc, result := parseFailText }, [])
  | some args =>
    match exec tc.fn.name args with
    | Except.ok r => ({ toolCall := tc, result := r }, [(tc.fn.name, args)])
    | Except.error e => ({ toolCall := tc, result := "Error: " ++ e }, [(tc.fn.name, args)])

/-- Embeds `await Promise.all(toolPromises)`: one settled result per
request, in request order. -/
def dispatchResults {α : Type} (parseJson : String → Option α)
    (exec : String → α → Except String String) (calls : List ToolCall) :
    List DispatchResult :=
  calls.map (fun tc => (dispatchOne parseJson exec tc).1)

/-- The tool-result message persisted for one settled result (role
`tool`, type `tool`, the result text, the originating call id). -/
def toolMsg (r : DispatchResult) : AMsg :=
  { role := "tool", content := r.result, mtype := some "tool",
    tool_call_id := some r.toolCall.id }

/-- Outcome of the `while` loop of `Agent.run`. -/
inductive LoopOutcome
  | finalAnswer (content : String)
  | exhausted
  | llmNull
  | llmThrew (err : String)
deriving DecidableEq, Repr

/-- Embeds the `while (i < this.maxLoop)` loop of `Agent.run`,
parameterized over the provider (`Except.error` modelling a thrown
`generate`, `Except.ok none` a null response).  Arguments: remaining fuel
(`maxLoop - i`), iterations executed so far (`i`), and the session
messages.  Returns the messages, the loop outcome, and the final `i`.
Each iteration prepends the system prompt, calls the provider, and either
fails (throw / null), persists the final assistant answer, or persists
the assistant tool-call message plus one tool result per call in request
order and continues. -/
def runLoop {α : Type} (provider : List AMsg → Except String (Option LLMResp))
    (parseJson : String → Option α) (exec : String → α → Except String String)
    (systemPrompt : String) :
    Nat → Nat → List AMsg → List AMsg × LoopOutcome × Nat
  | 0, iters, msgs => (msgs, LoopOutcome.exhausted, iters)
  | fuel + 1, iters, msgs =>
    match provider (systemMsg systemPrompt :: msgs) with
    | Except.error e => (msgs, LoopOutcome.llmThrew e, iters + 1)
    | Except.ok none => (msgs, LoopOutcome.llmNull, iters + 1)
    | Except.ok (some resp) =>
      if resp.tool_calls.isEmpty then
        (msgs ++ [assistantMsg resp.content], LoopOutcome.finalAnswer resp.content, iters + 1)
      else
        runLoop provider parseJson exec systemPrompt fuel (iters + 1)
          (msgs ++ [assistantToolCallMsg resp]
            ++ (dispatchResults parseJson exec resp.tool_calls).map toolMsg)

/-- Lifecycle events emitted by `Agent.run` (`failure` and `success` with
their payloads, and the `end` event of the `finally` block, called
`ended` here). -/
inductive AEvent
  | failure (err : String)
  | success
  | ended
deriving DecidableEq, Repr

/-- The observable outcome of one `Agent.run` call: the returned response
content (`none` for a null return), the emitted events in order, the
session messages after the call, and the number of loop iterations
executed. -/
structure RunResult where
  response : Option String
  events : List AEvent
  msgs : List AMsg
  iters : Nat
deriving DecidableEq, Repr

/-- Embeds the `maxLoop` resolution of the `Agent` constructor:
`config.maxLoop || 100` (an absent or zero setting falls back to 100). -/
def maxLoopOf (cfg : Option Nat) : Nat :=
  match cfg with
  | some n => if n = 0 then 100 else n
  | none => 100

/-- Embeds `Agent.run`: append the user message, run the loop, then the
post-loop checks of the source in order: a thrown provider is caught by
the outer catch (failure event, null return); a null response returns
null with a failure event; `i >= maxLoop` returns null with the
`Max iterations reached` failure even when a final answer was produced on
the last iteration; otherwise the success event is emitted and the final
content returned.  The `end` event is always emitted last (`finally`).
The function is total, so the loop always terminates. -/
def run {α : Type} (provider : List AMsg → Except String (Option LLMResp))
    (parseJson : String → Option α) (exec : String → α → Except String String)
    (systemPrompt : String) (maxLoop : Nat) (history : List AMsg) (query : String) :
    RunResult :=
  match runLoop provider parseJson exec systemPrompt maxLoop 0 (history ++ [userMsg query]) with
  | (msgs, LoopOutcome.llmThrew e, iters) =>
    { response := none, events := [AEvent.failure e, AEvent.ended],
      msgs := msgs, iters := iters }
  | (msgs, LoopOutcome.llmNull, iters) =>
    { response := none,
      events := [AEvent.failure "LLM returned null response", AEvent.ended],
      msgs := msgs, iters := iters }
  | (msgs, LoopOutcome.exhausted, iters) =>
    { response := none,
      events := [AEvent.failure "Max iterations reached", AEvent.ended],
      msgs := msgs, iters := iters }
  | (msgs, LoopOutcome.finalAnswer c, iters) =>
    if maxLoop ≤ iters then
      { response := none,
        events := [AEvent.failure "Max iterations reached", AEvent.ended],
        msgs := msgs, iters := iters }
    else
      { response := some c, events := [AEvent.success, AEvent.ended],
        msgs := msgs, iters := iters }

/-- Embeds the data `OpenAIProvider.generate` reads out of a parsed
chat-completion response: `choices[0]?.message?.content` (possibly
absent) and the tool calls after the argument cleanup. -/
structure ChatData where
  content : Option String
  tool_calls : List ToolCall
deriving DecidableEq, Repr

/-- Embeds `OpenAIProvider.generate` of `src/src/providers/openai.ts`,
abstracted over the outcome of the request block inside its `try`
(`Except.error` models any thrown step: a fetch failure, a non-ok status
converted to a throw, a JSON failure).  On success it returns the
response content with defaults; on any caught error it returns an
ordinary assistant response whose content is `"LLM API error: " ++ msg`
with no tool calls.  It never throws and never returns null. -/
def openaiGenerate (fetched : Except String ChatData) : LLMResp :=
  match fetched with
  | Except.ok d => { content := d.content.getD "", tool_calls := d.tool_calls }
  | Except.error e => { content := "LLM API error: " ++ e, tool_calls := [] }

/-- Helper: the messages component of `run` is the messages component of
the loop. -/
lemma run_msgs_eq {α : Type} (provider : List AMsg → Except String (Option LLMResp))
    (parseJson : String → Option α) (exec : String → α → Except String String)
    (sp query : String) (maxLoop : Nat) (history : List AMsg) :
    (run provider parseJson exec sp maxLoop history query).msgs
      = (runLoop provider parseJson exec sp maxLoop 0 (history ++ [userMsg query])).1 := by
  unfold run
  rcases hr : runLoop provider parseJson exec sp maxLoop 0 (history ++ [userMsg query])
    with ⟨msgs, out, iters⟩
  cases out
  · dsimp only
    split <;> rfl
  · rfl
  · rfl
  · rfl

/-- Helper: the iteration count of `run` is the final `i` of the loop. -/
lemma run_iters_eq {α : Type} (provider : List AMsg → Except String (Option LLMResp))
    (parseJson : String → Option α) (exec : String → α → Except String String)
    (sp query : String) (maxLoop : Nat) (history : List AMsg) :
    (run provider parseJson exec sp maxLoop history query).iters
      = (runLoop provider parseJson exec sp maxLoop 0 (history ++ [userMsg query])).2.2 := by
  unfold run
  rcases hr : runLoop provider parseJson exec sp maxLoop 0 (history ++ [userMsg query])
    with ⟨msgs, out, iters⟩
  cases out
  · dsimp only
    split <;> rfl
  · rfl
  · rfl
  · rfl

/-- Helper: the loop executes at most `fuel` further iterations. -/
lemma runLoop_iters_le {α : Type} (provider : List AMsg → Except String (Option LLMResp))
    (parseJson : String → Option α) (exec : String → α → Except String String)
    (sp : String) : ∀ (fuel iters : Nat) (msgs : List AMsg),
    (runLoop provider parseJson exec sp fuel iters msgs).2.2 ≤ iters + fuel := by
  intro fuel
  induction fuel with
  | zero => intro iters msgs; simp [runLoop]
  | succ fuel ih =>
    intro iters msgs
    rcases hp : provider (systemMsg sp :: msgs) with e | o
    · simp [runLoop, hp]
    · rcases o with _ | r
      · simp [runLoop, hp]
      · cases hie : r.tool_calls.isEmpty with
        | true =>
          simp [runLoop, hp, hie]
        | false =>
          simp only [runLoop, hp, hie, Bool.false_eq_true, if_false]
          have := ih (iters + 1)
            (msgs ++ [assistantToolCallMsg r]
              ++ (dispatchResults parseJson exec r.tool_calls).map toolMsg)
          omega

/-- Helper: the loop only appends messages. -/
lemma runLoop_msgs_extend {α : Type} (provider : List AMsg → Except String (Option LLMResp))
    (parseJson : String → Option α) (exec : String → α → Except String String)
    (sp : String) : ∀ (fuel iters : Nat) (msgs : List AMsg),
    ∃ t, (runLoop provider parseJson exec sp fuel iters msgs).1 = msgs ++ t := by
  intro fuel
  induction fuel with
  | zero => intro iters msgs; exact ⟨[], by simp [runLoop]⟩
  | succ fuel ih =>
    intro iters msgs
    rcases hp : provider (systemMsg sp :: msgs) with e | o
    · exact ⟨[], by simp [runLoop, hp]⟩
    · rcases o with _ | r
      · exact ⟨[], by simp [runLoop, hp]⟩
      · cases hie : r.tool_calls.isEmpty with
        | true =>
          refine ⟨[assistantMsg r.content], ?_⟩
          simp [runLoop, hp, hie]
        | false =>
          obtain ⟨t, ht⟩ := ih (iters + 1)
            (msgs ++ [assistantToolCallMsg r]
              ++ (dispatchResults parseJson exec r.tool_calls).map toolMsg)
          refine ⟨[assistantToolCallMsg r]
            ++ (dispatchResults parseJson exec r.tool_calls).map toolMsg ++ t, ?_⟩
          simp only [runLoop, hp, hie, Bool.false_eq_true, if_false]
          rw [ht]
          simp [List.append_assoc]

/-- Helper: with a provider that answers every call with tool calls, the
loop consumes all its fuel and exits `exhausted`. -/
lemma runLoop_allTools {α : Type} (provider : List AMsg → Except String (Option LLMResp))
    (parseJson : String → Option α) (exec : String → α → Except String String)
    (sp : String)
    (hall : ∀ msgs, ∃ r, provider msgs = Except.ok (some r) ∧ r.tool_calls ≠ []) :
    ∀ (fuel iters : Nat) (msgs : List AMsg),
    (runLoop provider parseJson exec sp fuel iters msgs).2.1 = LoopOutcome.exhausted ∧
    (runLoop provider parseJson exec sp fuel iters msgs).2.2 = iters + fuel := by
  intro fuel
  induction fuel with
  | zero => intro iters msgs; exact ⟨rfl, by simp [runLoop]⟩
  | succ fuel ih =>
    intro iters msgs
    obtain ⟨r, hp, hne⟩ := hall (systemMsg sp :: msgs)
    have hie : r.tool_calls.isEmpty = false := by
      cases h : r.tool_calls with
      | nil => exact absurd h hne
      | cons a as => rfl
    have h2 := ih (iters + 1)
      (msgs ++ [assistantToolCallMsg r]
        ++ (dispatchResults parseJson exec r.tool_calls).map toolMsg)
    simp only [runLoop, hp, hie, Bool.false_eq_true, if_false]
    exact ⟨h2.1, by rw [h2.2]; omega⟩

/-- Helper: when the loop ends with a final answer, that assistant
message was persisted as the last message. -/
lemma runLoop_finalAnswer_msgs {α : Type}
    (provider : List AMsg → Except String (Option LLMResp))
    (parseJson : String → Option α) (exec : String → α → Except String String)
    (sp : String) (c : String) : ∀ (fuel iters : Nat) (msgs : List AMsg),
    (runLoop provider parseJson exec sp fuel iters msgs).2.1 = LoopOutcome.finalAnswer c →
    ∃ pre, (runLoop provider parseJson exec sp fuel iters msgs).1 = pre ++ [assistantMsg c] := by
  intro fuel
  induction fuel with
  | zero => intro iters msgs h; simp [runLoop] at h
  | succ fuel ih =>
    intro iters msgs h
    rcases hp : provider (systemMsg sp :: msgs) with e | o
    · rw [runLoop] at h
      simp [hp] at h
    · rcases o with _ | r
      · rw [runLoop] at h
        simp [hp] at h
      · cases hie : r.tool_calls.isEmpty with
        | true =>
          rw [runLoop] at h
          simp only [hp, hie, if_true] at h
          refine ⟨msgs, ?_⟩
          rw [runLoop]
          simp only [hp, hie, if_true]
          simp at h
          rw [h]
        | false =>
          rw [runLoop] at h
          simp only [hp, hie, Bool.false_eq_true, if_false] at h
          obtain ⟨pre, hpre⟩ := ih (iters + 1)
            (msgs ++ [assistantToolCallMsg r]
              ++ (dispatchResults parseJson exec r.tool_calls).map toolMsg) h
          refine ⟨pre, ?_⟩
          rw [runLoop]
          simp only [hp, hie, Bool.false_eq_true, if_false]
          exact hpre

/-- Helper: the result of one settled promise carries its own call. -/
lemma dispatchOne_toolCall {α : Type} (parseJson : String → Option α)
    (exec : String → α → Except String String) (tc : ToolCall) :
    (dispatchOne parseJson exec tc).1.toolCall = tc := by
  unfold dispatchOne
  rcases hp : parseJson tc.fn.arguments with _ | args
  · rfl
  · rcases he : exec tc.fn.name args with e | r
    · dsimp only
      rw [he]
    · dsimp only
      rw [he]

end Agent

/-- Claim C2.  The dispatch step of `Agent.run` produces exactly one
result per tool call of the batch, in request order (the persisted
tool-result messages carry the call ids in request order); a call whose
arguments do not parse yields the synthesized error text without the tool
being invoked (its invocation list is empty); each result depends only on
its own call (one failing call never prevents the others); and the loop
persists the assistant tool-call message followed by all result messages
in request order before continuing. -/
theorem c2_dispatch_per_request {α : Type}
    (provider : List Agent.AMsg → Except String (Option Agent.LLMResp))
    (parseJson : String → Option α) (exec : String → α → Except String String)
    (systemPrompt : String) (resp : Agent.LLMResp) :
    (∀ calls : List Agent.ToolCall,
      (Agent.dispatchResults parseJson exec calls).length = calls.length) ∧
    (∀ calls : List Agent.ToolCall,
      (Agent.dispatchResults parseJson exec calls).map (fun r => r.toolCall.id)
        = calls.map Agent.ToolCall.id) ∧
    (∀ tc : Agent.ToolCall, parseJson tc.fn.arguments = none →
      Agent.dispatchOne parseJson exec tc
        = ({ toolCall := tc, result := Agent.parseFailText }, [])) ∧
    (∀ (calls : List Agent.ToolCall) (i : Nat),
      (Agent.dispatchResults parseJson exec calls)[i]?
        = calls[i]?.map (fun tc => (Agent.dispatchOne parseJson exec tc).1)) ∧
    (∀ (fuel iters : Nat) (msgs : List Agent.AMsg),
      provider (Agent.systemMsg systemPrompt :: msgs) = Except.ok (some resp) →
      resp.tool_calls ≠ [] →
      Agent.runLoop provider parseJson exec systemPrompt (fuel + 1) iters msgs
        = Agent.runLoop provider parseJson exec systemPrompt fuel (iters + 1)
            (msgs ++ [Agent.assistantToolCallMsg resp]
              ++ (Agent.dispatchResults parseJson exec resp.tool_calls).map Agent.toolMsg)) := by
  refine ⟨?_, ?_, ?_, ?_, ?_⟩
  · intro calls
    simp [Agent.dispatchResults]
  · intro calls
    unfold Agent.dispatchResults
    rw [List.map_map]
    apply List.map_congr_left
    intro tc _
    simp [Agent.dispatchOne_toolCall]
  · intro tc h
    simp [Agent.dispatchOne, h]
  · intro calls i
    simp [Agent.dispatchResults, List.getElem?_map]
  · intro fuel iters msgs hp hne
    have hie : resp.tool_calls.isEmpty = false := by
      cases h : resp.tool_calls with
      | nil => exact absurd h hne
      | cons a as => rfl
    rw [Agent.runLoop]
    simp only [hp, hie, Bool.false_eq_true, if_false]

/-- A parse function for the concrete dispatch scenario: only the string
`{}` parses. -/
def exParse : String → Option Unit :=
  fun s => if s = "\x7b\x7d" then some () else none

/-- An execution function for the concrete dispatch scenario: the tool
`boom` throws, everything else succeeds with `fine`. -/
def exExec : String → Unit → Except String String :=
  fun n _ => if n = "boom" then Except.error "kaput" else Except.ok "fine"

/-- A well-formed tool call. -/
def exCallOk : Agent.ToolCall := ⟨"1", ⟨"t1", "\x7b\x7d"⟩⟩

/-- A tool call with malformed JSON arguments. -/
def exCallBad : Agent.ToolCall := ⟨"2", ⟨"t2", "not json"⟩⟩

/-- A tool call whose execution throws. -/
def exCallThrow : Agent.ToolCall := ⟨"3", ⟨"boom", "\x7b\x7d"⟩⟩

/-- The concrete batch of three tool calls. -/
def exCalls : List Agent.ToolCall := [exCallOk, exCallBad, exCallThrow]

/-- The concrete LLM response carrying the batch. -/
def exResp : Agent.LLMResp := ⟨"calling tools", exCalls⟩

/-- A deterministic provider that always answers with the tool-call
batch. -/
def exProviderTools : List Agent.AMsg → Except String (Option Agent.LLMResp) :=
  fun _ => Except.ok (some exResp)

/-- Claim C2 witness: the dispatch properties at the concrete
three-call batch (one success, one malformed, one throwing). -/
theorem c2_dispatch_per_request_witness :
    (Agent.dispatchResults exParse exExec exCalls).length = exCalls.length ∧
    (Agent.dispatchResults exParse exExec exCalls).map (fun r => r.toolCall.id)
      = exCalls.map Agent.ToolCall.id ∧
    (exParse exCallBad.fn.arguments = none ∧
      Agent.dispatchOne exParse exExec exCallBad
        = ({ toolCall := exCallBad, result := Agent.parseFailText }, [])) ∧
    (exProviderTools (Agent.systemMsg "sys" :: [Agent.userMsg "q"])
        = Except.ok (some exResp) ∧
      exResp.tool_calls ≠ [] ∧
      Agent.runLoop exProviderTools exParse exExec "sys" 1 0 [Agent.userMsg "q"]
        = Agent.runLoop exProviderTools exParse exExec "sys" 0 1
            ([Agent.userMsg "q"] ++ [Agent.assistantToolCallMsg exResp]
              ++ (Agent.dispatchResults exParse exExec exResp.tool_calls).map Agent.toolMsg)) := by
  have h := c2_dispatch_per_request exProviderTools exParse exExec "sys" exResp
  refine ⟨h.1 exCalls, h.2.1 exCalls, ⟨by decide, h.2.2.1 exCallBad (by decide)⟩,
    rfl, by decide, h.2.2.2.2 0 0 [Agent.userMsg "q"] rfl (by decide)⟩

/-- Claim C3.  `Agent.run` always terminates (it is a total function) and
performs at most `maxLoop` iterations; the default resolution of the
ceiling is 100; and with any deterministic provider that answers every
call with tool calls, the run ends with a null response, the
`Max iterations reached` failure event, and exactly `maxLoop` iterations,
while the session messages are kept (the pre-existing history and the
user message remain a prefix of the final messages). -/
theorem c3_run_bounded {α : Type}
    (provider : List Agent.AMsg → Except String (Option Agent.LLMResp))
    (parseJson : String → Option α) (exec : String → α → Except String String)
    (systemPrompt query : String) (maxLoop : Nat) (history : List Agent.AMsg) :
    (Agent.run provider parseJson exec systemPrompt maxLoop history query).iters ≤ maxLoop ∧
    (∃ t, (Agent.run provider parseJson exec systemPrompt maxLoop history query).msgs
      = (history ++ [Agent.userMsg query]) ++ t) ∧
    Agent.maxLoopOf none = 100 ∧
    ((∀ msgs, ∃ r, provider msgs = Except.ok (some r) ∧ r.tool_calls ≠ []) →
      (Agent.run provider parseJson exec systemPrompt maxLoop history query).response = none ∧
      (Agent.run provider parseJson exec systemPrompt maxLoop history query).events
        = [Agent.AEvent.failure "Max iterations reached", Agent.AEvent.ended] ∧
      (Agent.run provider parseJson exec systemPrompt maxLoop history query).iters = maxLoop) := by
  refine ⟨?_, ?_, rfl, ?_⟩
  · rw [Agent.run_iters_eq]
    have := Agent.runLoop_iters_le provider parseJson exec systemPrompt maxLoop 0
      (history ++ [Agent.userMsg query])
    omega
  · rw [Agent.run_msgs_eq]
    exact Agent.runLoop_msgs_extend provider parseJson exec systemPrompt maxLoop 0
      (history ++ [Agent.userMsg query])
  · intro hall
    have h := Agent.runLoop_allTools provider parseJson exec systemPrompt hall maxLoop 0
      (history ++ [Agent.userMsg query])
    rcases hr : Agent.runLoop provider parseJson exec systemPrompt maxLoop 0
      (history ++ [Agent.userMsg query]) with ⟨msgs, out, iters⟩
    rw [hr] at h
    have h1 : out = Agent.LoopOutcome.exhausted := h.1
    have h2 : iters = 0 + maxLoop := h.2
    subst h1
    subst h2
    unfold Agent.run
    rw [hr]
    refine ⟨rfl, rfl, ?_⟩
    show 0 + maxLoop = maxLoop
    omega

/-- Claim C3 witness: the concrete always-tool-calls provider at
`maxLoop = 2` reaches the ceiling with a null response and the failure
event. -/
theorem c3_run_bounded_witness :
    (∀ msgs, ∃ r, exProviderTools msgs = Except.ok (some r) ∧ r.tool_calls ≠ []) ∧
    (Agent.run exProviderTools exParse exExec "sys" 2 [] "q").response = none ∧
    (Agent.run exProviderTools exParse exExec "sys" 2 [] "q").events
      = [Agent.AEvent.failure "Max iterations reached", Agent.AEvent.ended] ∧
    (Agent.run exProviderTools exParse exExec "sys" 2 [] "q").iters = 2 := by
  have hall : ∀ msgs, ∃ r, exProviderTools msgs = Except.ok (some r) ∧ r.tool_calls ≠ [] :=
    fun _ => ⟨exResp, rfl, by decide⟩
  have h := (c3_run_bounded exProviderTools exParse exExec "sys" "q" 2 []).2.2.2 hall
  exact ⟨hall, h.1, h.2.1, h.2.2⟩

/-- Claim C10.  When the loop produces its final no-tool-call answer
exactly on the `maxLoop`-th iteration, `Agent.run` has persisted that
assistant answer (it is the last message of the session) but the
post-loop `i >= maxLoop` check still returns null and emits the
`Max iterations reached` failure instead of the success result. -/
theorem c10_final_answer_at_ceiling {α : Type}
    (provider : List Agent.AMsg → Except String (Option Agent.LLMResp))
    (parseJson : String → Option α) (exec : String → α → Except String String)
    (systemPrompt query c : String) (maxLoop : Nat) (history msgs2 : List Agent.AMsg)
    (hloop : Agent.runLoop provider parseJson exec systemPrompt maxLoop 0
        (history ++ [Agent.userMsg query])
      = (msgs2, Agent.LoopOutcome.finalAnswer c, maxLoop)) :
    Agent.run provider parseJson exec systemPrompt maxLoop history query
      = { response := none,
          events := [Agent.AEvent.failure "Max iterations reached", Agent.AEvent.ended],
          msgs := msgs2, iters := maxLoop } ∧
    ∃ pre, msgs2 = pre ++ [Agent.assistantMsg c] := by
  constructor
  · unfold Agent.run
    rw [hloop]
    dsimp only
    rw [if_pos (Nat.le_refl _)]
  · have h := Agent.runLoop_finalAnswer_msgs provider parseJson exec systemPrompt c
      maxLoop 0 (history ++ [Agent.userMsg query]) (by rw [hloop])
    rw [hloop] at h
    exact h

/-- A deterministic provider that answers the very first call with a
final no-tool-call response. -/
def exProviderFinal : List Agent.AMsg → Except String (Option Agent.LLMResp) :=
  fun _ => Except.ok (some ⟨"done", []⟩)

/-- Claim C10 witness: with `maxLoop = 1` and a provider that answers
immediately, the final answer lands exactly on the ceiling iteration: the
assistant message is persisted as the last message, yet the run returns
null with the `Max iterations reached` failure. -/
theorem c10_final_answer_at_ceiling_witness :
    Agent.runLoop exProviderFinal exParse exExec "sys" 1 0 ([] ++ [Agent.userMsg "q"])
      = ([Agent.userMsg "q", Agent.assistantMsg "done"],
          Agent.LoopOutcome.finalAnswer "done", 1) ∧
    Agent.run exProviderFinal exParse exExec "sys" 1 [] "q"
      = { response := none,
          events := [Agent.AEvent.failure "Max iterations reached", Agent.AEvent.ended],
          msgs := [Agent.userMsg "q", Agent.assistantMsg "done"], iters := 1 } ∧
    ∃ pre, [Agent.userMsg "q", Agent.assistantMsg "done"]
      = pre ++ [Agent.assistantMsg "done"] := by
  have hloop : Agent.runLoop exProviderFinal exParse exExec "sys" 1 0
      ([] ++ [Agent.userMsg "q"])
      = ([Agent.userMsg "q", Agent.assistantMsg "done"],
          Agent.LoopOutcome.finalAnswer "done", 1) := by decide
  have h := c10_final_answer_at_ceiling exProviderFinal exParse exExec "sys" "q" "done" 1 []
    [Agent.userMsg "q", Agent.assistantMsg "done"] hloop
  exact ⟨hloop, h.1, h.2⟩

/-- A provider wrapping `OpenAIProvider.generate` on a run where the
underlying request throws: `generate` swallows the error. -/
def exProviderWrapErr : List Agent.AMsg → Except String (Option Agent.LLMResp) :=
  fun _ => Except.ok (some (Agent.openaiGenerate (Except.error "fetch failed")))

/-- Claim C9 counterexample.  An underlying request failure does not end
the loop with a failure result: `OpenAIProvider.generate` catches the
thrown request and returns an ordinary assistant response whose content
is `LLM API error: fetch failed` with no tool calls, which `Agent.run`
treats as a successful final answer — the run returns that content and
emits the success event, not a failure. -/
theorem c9_request_failure_becomes_success :
    (Agent.run exProviderWrapErr exParse exExec "sys" 100 [] "hi").response
      = some ("LLM API error: " ++ "fetch failed") ∧
    (Agent.run exProviderWrapErr exParse exExec "sys" 100 [] "hi").events
      = [Agent.AEvent.success, Agent.AEvent.ended] := by
  exact ⟨by decide, by decide⟩

/-- Claim C9, amended.  At the agent layer a thrown or null `generate`
is indeed a hard failure handled immediately and without retry: if the
first provider call returns null the run ends at once with the
`LLM returned null response` failure, null result, exactly one iteration
and no further messages; if it throws, the outer catch ends the run with
the error as failure event, null result, one iteration.  However
`OpenAIProvider.generate` itself never throws and never returns null: a
request failure is converted into an ordinary assistant response with
content `LLM API error: ...` and no tool calls, so with that provider the
failing request ends the run as a successful final answer instead. -/
theorem c9_null_or_throw_is_failure {α : Type}
    (provider : List Agent.AMsg → Except String (Option Agent.LLMResp))
    (parseJson : String → Option α) (exec : String → α → Except String String)
    (systemPrompt query e : String) (maxLoop : Nat) (history : List Agent.AMsg) :
    (∀ msg, Agent.openaiGenerate (Except.error msg)
      = { content := "LLM API error: " ++ msg, tool_calls := [] }) ∧
    (provider (Agent.systemMsg systemPrompt :: (history ++ [Agent.userMsg query]))
        = Except.ok none → 1 ≤ maxLoop →
      Agent.run provider parseJson exec systemPrompt maxLoop history query
        = { response := none,
            events := [Agent.AEvent.failure "LLM returned null response", Agent.AEvent.ended],
            msgs := history ++ [Agent.userMsg query], iters := 1 }) ∧
    (provider (Agent.systemMsg systemPrompt :: (history ++ [Agent.userMsg query]))
        = Except.error e → 1 ≤ maxLoop →
      Agent.run provider parseJson exec systemPrompt maxLoop history query
        = { response := none,
            events := [Agent.AEvent.failure e, Agent.AEvent.ended],
            msgs := history ++ [Agent.userMsg query], iters := 1 }) := by
  refine ⟨fun msg => rfl, ?_, ?_⟩
  · intro hp hml
    obtain ⟨k, hk⟩ := Nat.exists_eq_add_of_le hml
    subst hk
    rw [Nat.add_comm 1 k]
    unfold Agent.run
    simp only [Agent.runLoop, hp]
  · intro hp hml
    obtain ⟨k, hk⟩ := Nat.exists_eq_add_of_le hml
    subst hk
    rw [Nat.add_comm 1 k]
    unfold Agent.run
    simp only [Agent.runLoop, hp]

/-- A provider that returns a null response on every call. -/
def exProviderNull : List Agent.AMsg → Except String (Option Agent.LLMResp) :=
  fun _ => Except.ok none

/-- Claim C9 witness: with the concrete null-returning provider at the
default ceiling, the run ends immediately in failure with one
iteration. -/
theorem c9_null_or_throw_is_failure_witness :
    exProviderNull (Agent.systemMsg "sys" :: ([] ++ [Agent.userMsg "q"])) = Except.ok none ∧
    (1 : Nat) ≤ 100 ∧
    Agent.run exProviderNull exParse exExec "sys" 100 [] "q"
      = { response := none,
          events := [Agent.AEvent.failure "LLM returned null response", Agent.AEvent.ended],
          msgs := [] ++ [Agent.userMsg "q"], iters := 1 } := by
  refine ⟨rfl, by decide, ?_⟩
  exact (c9_null_or_throw_is_failure exProviderNull exParse exExec "sys" "q" "e" 100 []).2.1
    rfl (by decide)

end AgentSpec
